import Mathlib

/-!
Shallow embedding of the TSL UMD protocol codec, framer and TCP stream
reassembler of the TSL-UMD-Tester repository.

Byte buffers are modelled as lists of natural numbers (each entry a byte
value; JS Buffer writes truncate with mod 256, which is made explicit).
The builders construct the buffer by concatenation, which agrees with the
source's alloc-then-write-sequentially style. Node's ascii string decoding
clears the high bit of every byte (mod 128); its ascii/latin1 encoding
truncates each char code mod 256; utf16le encoding writes each code unit
as two little-endian bytes. Display text is modelled as the list of char
codes of the string.
-/

namespace TSL

/-- Little-endian 16-bit read at an offset, as Buffer.readUInt16LE. -/
def read16 (b : List Nat) (off : Nat) : Nat :=
  b.getD off 0 + 256 * b.getD (off + 1) 0

/-- Little-endian 16-bit write, as Buffer.writeUInt16LE (value mod 2^16). -/
def write16 (v : Nat) : List Nat :=
  [v % 256, v / 256 % 256]

/-- Sum of the first 18 bytes, as in the checksum loops of the source. -/
def sum18 (b : List Nat) : Nat :=
  (b.take 18).sum

/-- The V3.1/V4.0 checksum ((~sum + 1) & 0x7F) over the first 18 bytes,
expressed on Nat: the value of the twos-complement-mod-128 of the sum. -/
def checksum18 (b : List Nat) : Nat :=
  (128 - sum18 b % 128) % 128

-- Wire model (src/protocol/types.ts).  TallyState and Brightness are kept
-- as Nat because the source manipulates them as raw 2-bit numbers.

inductive ProtocolVersion
  | V3_1
  | V4_0
  | V5_0
deriving DecidableEq, Repr

structure TslV31Message where
  address : Nat
  tally1 : Bool
  tally2 : Bool
  tally3 : Bool
  tally4 : Bool
  brightness : Nat
  displayText : List Nat
deriving DecidableEq, Repr

structure TallyTriple where
  leftTally : Nat
  textTally : Nat
  rightTally : Nat
deriving DecidableEq, Repr

structure TslV40Message where
  address : Nat
  tally1 : Bool
  tally2 : Bool
  tally3 : Bool
  tally4 : Bool
  brightness : Nat
  displayText : List Nat
  leftDisplay : TallyTriple
  rightDisplay : TallyTriple
deriving DecidableEq, Repr

structure TslV50DisplayMessage where
  index : Nat
  rightTally : Nat
  textTally : Nat
  leftTally : Nat
  brightness : Nat
  text : List Nat
deriving DecidableEq, Repr

structure TslV50Flags where
  unicode : Bool
  screenControl : Bool
deriving DecidableEq, Repr

structure TslV50Message where
  packetByteCount : Nat
  minorVersion : Nat
  flags : TslV50Flags
  screen : Nat
  displays : List TslV50DisplayMessage
deriving DecidableEq, Repr

/-- The union type TslMessage; the version tag of the source records is the
constructor. -/
inductive TslMessage
  | v31 (m : TslV31Message)
  | v40 (m : TslV40Message)
  | v50 (m : TslV50Message)
deriving DecidableEq, Repr

/-- The version tag carried by a parsed message. -/
def TslMessage.version : TslMessage → ProtocolVersion
  | .v31 _ => .V3_1
  | .v40 _ => .V4_0
  | .v50 _ => .V5_0

-- Parser (src/protocol/parser.ts)

/-- TslParser.detectVersion. -/
def detectVersion (b : List Nat) : Option ProtocolVersion :=
  if b.length < 2 then none
  else if 6 ≤ b.length ∧ read16 b 0 = b.length - 2 then some .V5_0
  else
    if 0x80 ≤ b.getD 0 0 ∧ b.getD 0 0 ≤ 0xFE then
      if 18 < b.length ∧ b.getD 18 0 = checksum18 b then some .V4_0
      else some .V3_1
    else none

/-- One character of toString moved through the ascii decode (clears the
high bit) and the control-character replacement regex of parseV31. -/
def decode31Char (byte : Nat) : Nat :=
  if byte % 128 ≤ 0x1F ∨ byte % 128 = 0x7F then 0x20 else byte % 128

/-- Bytes 2..17 decoded as ascii with control characters replaced by
spaces, as in parseV31. -/
def decodeText31 (bytes : List Nat) : List Nat :=
  bytes.map decode31Char

/-- TslParser.parseV31. -/
def parseV31 (b : List Nat) : Option TslV31Message :=
  if b.length < 18 then none
  else if b.getD 0 0 < 0x80 ∨ 0xFE < b.getD 0 0 then none
  else
    some
      { address := b.getD 0 0 - 0x80
        tally1 := b.getD 1 0 &&& 0x01 != 0
        tally2 := b.getD 1 0 &&& 0x02 != 0
        tally3 := b.getD 1 0 &&& 0x04 != 0
        tally4 := b.getD 1 0 &&& 0x08 != 0
        brightness := (b.getD 1 0 >>> 4) &&& 0x03
        displayText := decodeText31 ((b.drop 2).take 16) }

/-- The parseTallyByte helper of parseV40. -/
def parseTallyByte (byte : Nat) : TallyTriple :=
  { leftTally := (byte >>> 4) &&& 0x03
    textTally := (byte >>> 2) &&& 0x03
    rightTally := byte &&& 0x03 }

/-- TslParser.parseV40 (the minorVersion local of the source is computed
but not returned, so it is omitted). -/
def parseV40 (b : List Nat) : Option TslV40Message :=
  if b.length < 22 then none
  else
    match parseV31 b with
    | none => none
    | some v31 =>
      if b.getD 18 0 ≠ checksum18 b then none
      else
        if b.length < 20 + (b.getD 19 0 &&& 0x0F) then none
        else
          some
            { address := v31.address
              tally1 := v31.tally1
              tally2 := v31.tally2
              tally3 := v31.tally3
              tally4 := v31.tally4
              brightness := v31.brightness
              displayText := v31.displayText
              leftDisplay := parseTallyByte (b.getD 20 0)
              rightDisplay := parseTallyByte (b.getD 21 0) }

/-- Node utf16le decoding of a byte list into code units (a trailing odd
byte is dropped). -/
def utf16Decode : List Nat → List Nat
  | lo :: hi :: rest => (lo + 256 * hi) :: utf16Decode rest
  | _ => []

/-- Text decoding used in the V5.0 display walk: utf16le when the unicode
flag is set, ascii (high bit cleared) otherwise. -/
def decodeText50 (unicode : Bool) (bytes : List Nat) : List Nat :=
  if unicode then utf16Decode bytes else bytes.map (· % 128)

/-- The display-list loop of parseV50, indexed by fuel; the source walks an
offset through the buffer, modelled here on the remaining suffix.  Each
iteration consumes at least 6 bytes, so fuel equal to the length of the
suffix always suffices (proved below). -/
def walkDisplays (unicode : Bool) : Nat → List Nat → List TslV50DisplayMessage
  | 0, _ => []
  | fuel + 1, rest =>
    if rest.length < 6 then []
    else
      if read16 rest 2 &&& 0x8000 ≠ 0 then []
      else
        if (rest.drop 6).length < read16 rest 4 then []
        else
          { index := read16 rest 0
            rightTally := read16 rest 2 &&& 0x03
            textTally := (read16 rest 2 >>> 2) &&& 0x03
            leftTally := (read16 rest 2 >>> 4) &&& 0x03
            brightness := (read16 rest 2 >>> 6) &&& 0x03
            text := decodeText50 unicode ((rest.drop 6).take (read16 rest 4)) }
          :: walkDisplays unicode fuel ((rest.drop 6).drop (read16 rest 4))

/-- TslParser.parseV50. -/
def parseV50 (b : List Nat) : Option TslV50Message :=
  if b.length < 6 then none
  else if read16 b 0 ≠ b.length - 2 then none
  else
    if b.getD 3 0 &&& 0x02 != 0 then
      some
        { packetByteCount := read16 b 0
          minorVersion := b.getD 2 0
          flags := { unicode := b.getD 3 0 &&& 0x01 != 0, screenControl := true }
          screen := read16 b 4
          displays := [] }
    else
      some
        { packetByteCount := read16 b 0
          minorVersion := b.getD 2 0
          flags := { unicode := b.getD 3 0 &&& 0x01 != 0, screenControl := false }
          screen := read16 b 4
          displays :=
            walkDisplays (b.getD 3 0 &&& 0x01 != 0) (b.drop 6).length (b.drop 6) }

/-- TslParser.parse: auto-detect and dispatch. -/
def parse (b : List Nat) : Option TslMessage :=
  match detectVersion b with
  | some .V3_1 => (parseV31 b).map .v31
  | some .V4_0 => (parseV40 b).map .v40
  | some .V5_0 => (parseV50 b).map .v50
  | none => none

-- Builder (src/protocol/builder.ts)

/-- padEnd(16, space).slice(0, 16) of buildV31 on char-code lists. -/
def padTrunc16 (text : List Nat) : List Nat :=
  (text ++ List.replicate 16 0x20).take 16

/-- The control byte assembled by buildV31. -/
def packControl31 (t1 t2 t3 t4 : Bool) (brightness : Nat) : Nat :=
  (cond t1 1 0) ||| (cond t2 2 0) ||| (cond t3 4 0) ||| (cond t4 8 0) |||
    ((brightness &&& 0x03) <<< 4)

/-- TslBuilder.buildV31 (Buffer cell stores truncate mod 256). -/
def buildV31 (m : TslV31Message) : List Nat :=
  (m.address + 0x80) % 256 ::
    packControl31 m.tally1 m.tally2 m.tally3 m.tally4 m.brightness % 256 ::
    (padTrunc16 m.displayText).map (· % 256)

/-- The buildTallyByte helper of buildV40. -/
def packTallyByte (t : TallyTriple) : Nat :=
  ((t.leftTally &&& 0x03) <<< 4) ||| ((t.textTally &&& 0x03) <<< 2) |||
    (t.rightTally &&& 0x03)

/-- The V3.1 projection of a V4.0 message built by buildV40. -/
def v31OfV40 (m : TslV40Message) : TslV31Message :=
  { address := m.address
    tally1 := m.tally1
    tally2 := m.tally2
    tally3 := m.tally3
    tally4 := m.tally4
    brightness := m.brightness
    displayText := m.displayText }

/-- TslBuilder.buildV40. -/
def buildV40 (m : TslV40Message) : List Nat :=
  buildV31 (v31OfV40 m) ++
    [checksum18 (buildV31 (v31OfV40 m)), 0x02,
      packTallyByte m.leftDisplay % 256, packTallyByte m.rightDisplay % 256]

/-- Node ascii/latin1 encoding of char codes into bytes. -/
def asciiEncode (text : List Nat) : List Nat :=
  text.map (· % 256)

/-- Node utf16le encoding of code units into bytes. -/
def utf16Encode (text : List Nat) : List Nat :=
  text.flatMap fun u => [u % 256, u / 256 % 256]

/-- Text encoding selected by the V5.0 unicode flag, as in buildV50. -/
def encodeText50 (unicode : Bool) (text : List Nat) : List Nat :=
  if unicode then utf16Encode text else asciiEncode text

/-- The display control word assembled by buildV50. -/
def packControl50 (d : TslV50DisplayMessage) : Nat :=
  (d.rightTally &&& 0x03) ||| ((d.textTally &&& 0x03) <<< 2) |||
    ((d.leftTally &&& 0x03) <<< 4) ||| ((d.brightness &&& 0x03) <<< 6)

/-- One encoded display entry of buildV50: index, control, text length,
text bytes. -/
def encodeDisplay (unicode : Bool) (d : TslV50DisplayMessage) : List Nat :=
  write16 d.index ++ write16 (packControl50 d) ++
    write16 (encodeText50 unicode d.text).length ++ encodeText50 unicode d.text

/-- The dataSize computed by buildV50: 4 header bytes plus 6 plus the
encoded text length per display. -/
def dataSize50 (m : TslV50Message) : Nat :=
  4 + (m.displays.map fun d => 6 + (encodeText50 m.flags.unicode d.text).length).sum

/-- The flags byte written by buildV50. -/
def flagsByte (f : TslV50Flags) : Nat :=
  (cond f.unicode 1 0) ||| (cond f.screenControl 2 0)

/-- TslBuilder.buildV50.  The packetByteCount field of the message is not
read; the written PBC is the recomputed dataSize. -/
def buildV50 (m : TslV50Message) : List Nat :=
  write16 (dataSize50 m) ++ [m.minorVersion % 256, flagsByte m.flags] ++
    write16 m.screen ++ m.displays.flatMap (encodeDisplay m.flags.unicode)

-- Framer (TslBuilder.wrapForTcp / unwrapFromTcp)

/-- The byte-stuffing copy loop of wrapForTcp: every literal DLE (0xFE)
byte is doubled. -/
def stuff : List Nat → List Nat
  | [] => []
  | a :: rest => if a = 0xFE then 0xFE :: 0xFE :: stuff rest else a :: stuff rest

/-- TslBuilder.wrapForTcp: DLE STX delimiter followed by the stuffed
payload. -/
def wrapForTcp (b : List Nat) : List Nat :=
  0xFE :: 0x02 :: stuff b

/-- The forward scan of unwrapFromTcp for the first DLE,STX pair; returns
the suffix after the pair. -/
def findDelim : List Nat → Option (List Nat)
  | a :: b :: rest =>
    if a = 0xFE ∧ b = 0x02 then some rest else findDelim (b :: rest)
  | _ => none

/-- The destuffing loop of unwrapFromTcp: a DLE immediately followed by
another DLE collapses to one literal DLE. -/
def destuff : List Nat → List Nat
  | a :: b :: rest =>
    if a = 0xFE ∧ b = 0xFE then 0xFE :: destuff rest else a :: destuff (b :: rest)
  | [a] => [a]
  | [] => []

/-- TslBuilder.unwrapFromTcp. -/
def unwrapFromTcp (b : List Nat) : Option (List Nat) :=
  (findDelim b).map destuff

-- Stream reassembler (TcpServer.handleData in src/main/network.ts)

/-- The packet-extraction loop body of TcpServer.handleData, returning the
emitted raw packets in order and the final receive buffer.  Every exit
path of the source loop either consumes 18 or 22 bytes and continues, or
emits the rest and clears the buffer.  The loop is indexed by fuel; every
continuing iteration removes at least 18 bytes, so fuel equal to the
buffer length (as used by handleLoop below) always suffices, and the
fuel-0 case is only reached on the empty buffer, where the source loop
also stops. -/
def handleLoopF : Nat → List Nat → List (List Nat) × List Nat
  | 0, _ => ([], [])
  | fuel + 1, buf =>
    if buf.length = 0 then ([], [])
    else
      match unwrapFromTcp buf with
      | some u => ([u], [])
      | none =>
        if 18 ≤ buf.length then
          match detectVersion buf with
          | some .V3_1 =>
            let r := handleLoopF fuel (buf.drop 18)
            (buf.take 18 :: r.1, r.2)
          | some .V4_0 =>
            if 22 ≤ buf.length then
              let r := handleLoopF fuel (buf.drop 22)
              (buf.take 22 :: r.1, r.2)
            else ([buf], [])
          | _ => ([buf], [])
        else ([buf], [])

/-- The packet-extraction loop of TcpServer.handleData. -/
def handleLoop (buf : List Nat) : List (List Nat) × List Nat :=
  handleLoopF buf.length buf

/-- TcpServer.handleData: append the chunk to the receive buffer and run
the extraction loop. -/
def handleData (buf chunk : List Nat) : List (List Nat) × List Nat :=
  handleLoop (buf ++ chunk)

/-- Delivering a sequence of chunks to one connection in arrival order;
returns all emitted raw packets. -/
def runChunks : List Nat → List (List Nat) → List (List Nat)
  | _, [] => []
  | buf, c :: cs =>
    (handleData buf c).1 ++ runChunks (handleData buf c).2 cs

-- Validity predicates (the wire-model invariants of the spec)

/-- A valid V3.1 wire-model value: address 0..126, brightness in range,
printable display text. -/
def ValidV31 (m : TslV31Message) : Prop :=
  m.address ≤ 126 ∧ m.brightness ≤ 3 ∧
    ∀ c ∈ m.displayText, 0x20 ≤ c ∧ c ≤ 0x7E

/-- Tally triple with each tally state in 0..3. -/
def ValidTriple (t : TallyTriple) : Prop :=
  t.leftTally ≤ 3 ∧ t.textTally ≤ 3 ∧ t.rightTally ≤ 3

/-- A valid V4.0 wire-model value. -/
def ValidV40 (m : TslV40Message) : Prop :=
  m.address ≤ 126 ∧ m.brightness ≤ 3 ∧
    (∀ c ∈ m.displayText, 0x20 ≤ c ∧ c ≤ 0x7E) ∧
    ValidTriple m.leftDisplay ∧ ValidTriple m.rightDisplay

/-- A valid V5.0 display entry: index and enums in range, text code units
ascii (below 128) or utf16 (below 65536) according to the flag. -/
def ValidDisplay (unicode : Bool) (d : TslV50DisplayMessage) : Prop :=
  d.index ≤ 65534 ∧ d.rightTally ≤ 3 ∧ d.textTally ≤ 3 ∧ d.leftTally ≤ 3 ∧
    d.brightness ≤ 3 ∧ ∀ u ∈ d.text, u < (if unicode then 65536 else 128)

/-- A valid V5.0 wire-model value: fields within their encoded ranges and
the PBC invariant (packetByteCount equals encoded length minus 2). -/
def ValidV50 (m : TslV50Message) : Prop :=
  m.minorVersion ≤ 255 ∧ m.screen ≤ 65535 ∧
    m.packetByteCount = dataSize50 m ∧ dataSize50 m ≤ 65535 ∧
    ∀ d ∈ m.displays, ValidDisplay m.flags.unicode d

instance (m : TslV31Message) : Decidable (ValidV31 m) := by
  unfold ValidV31; infer_instance

instance (t : TallyTriple) : Decidable (ValidTriple t) := by
  unfold ValidTriple; infer_instance

instance (m : TslV40Message) : Decidable (ValidV40 m) := by
  unfold ValidV40; infer_instance

instance (u : Bool) (d : TslV50DisplayMessage) : Decidable (ValidDisplay u d) := by
  unfold ValidDisplay; infer_instance

instance (m : TslV50Message) : Decidable (ValidV50 m) := by
  unfold ValidV50; infer_instance

/-- The decode of an encoded V3.1 message: the text comes back
space-padded/truncated to 16 characters. -/
def normalizeV31 (m : TslV31Message) : TslV31Message :=
  { m with displayText := padTrunc16 m.displayText }

/-- The decode of an encoded V4.0 message. -/
def normalizeV40 (m : TslV40Message) : TslV40Message :=
  { m with displayText := padTrunc16 m.displayText }

/-- The bytes of one TCP chunk holding a whole number of V3.1 packets. -/
def chunkBytes (c : List TslV31Message) : List Nat :=
  (c.map buildV31).flatten

-- Concrete fixture values used by witnesses and counterexamples.

/-- A concrete V3.1 message (address 1, tally1 on, full brightness,
text CAM 1). -/
def wit31 : TslV31Message :=
  { address := 1, tally1 := true, tally2 := false, tally3 := false,
    tally4 := false, brightness := 3, displayText := [67, 65, 77, 32, 49] }

/-- A concrete V4.0 message. -/
def wit40 : TslV40Message :=
  { address := 5, tally1 := false, tally2 := true, tally3 := false,
    tally4 := true, brightness := 2, displayText := [72, 73],
    leftDisplay := ⟨1, 2, 3⟩, rightDisplay := ⟨3, 0, 1⟩ }

/-- A concrete V5.0 message with one display (encoded size 15, PBC 13). -/
def wit50 : TslV50Message :=
  { packetByteCount := 13, minorVersion := 0,
    flags := { unicode := false, screenControl := false }, screen := 2,
    displays := [{ index := 7, rightTally := 1, textTally := 2, leftTally := 3,
                   brightness := 2, text := [65, 66, 67] }] }

/-- A valid V5.0 message with screenControl set and one display. -/
def cex50sc : TslV50Message :=
  { packetByteCount := 10, minorVersion := 0,
    flags := { unicode := false, screenControl := true }, screen := 0,
    displays := [{ index := 0, rightTally := 0, textTally := 0, leftTally := 0,
                   brightness := 0, text := [] }] }

/-- The all-zero V4.0 message whose packet is [0x80, 0, 16 spaces,
0, 2, 0, 0]. -/
def cex40 : TslV40Message :=
  { address := 0, tally1 := false, tally2 := false, tally3 := false,
    tally4 := false, brightness := 0, displayText := [],
    leftDisplay := ⟨0, 0, 0⟩, rightDisplay := ⟨0, 0, 0⟩ }

/-- A valid V5.0 message whose encoded form is 130 bytes (data size 128),
so its truncation starts with 0x80. -/
def cex50big : TslV50Message :=
  { packetByteCount := 128, minorVersion := 0,
    flags := { unicode := false, screenControl := false }, screen := 0,
    displays := [{ index := 0, rightTally := 0, textTally := 0, leftTally := 0,
                   brightness := 0, text := List.replicate 118 32 }] }

/-- A 136-byte buffer whose first byte is in the V3.1/V4.0 header range
but which satisfies the V5.0 PBC condition. -/
def ambiguousBuf : List Nat :=
  0x86 :: 0x00 :: List.replicate 134 0

/-- Second concrete V3.1 message for the reassembler witness. -/
def wit31b : TslV31Message :=
  { address := 2, tally1 := false, tally2 := true, tally3 := false,
    tally4 := false, brightness := 1, displayText := [67, 65, 77, 32, 50] }

/-- Third concrete V3.1 message for the reassembler witness. -/
def wit31c : TslV31Message :=
  { address := 3, tally1 := false, tally2 := false, tally3 := true,
    tally4 := false, brightness := 2, displayText := [] }

/-- The all-zero V3.1 message whose packet is [0x80, 0, 16 spaces]. -/
def cex31 : TslV31Message :=
  { address := 0, tally1 := false, tally2 := false, tally3 := false,
    tally4 := false, brightness := 0, displayText := [] }

end TSL

namespace TSL

-- Small toolkit lemmas

theorem padTrunc16_length (t : List Nat) : (padTrunc16 t).length = 16 := by
  simp [padTrunc16]

theorem buildV31_length (m : TslV31Message) : (buildV31 m).length = 18 := by
  simp [buildV31, padTrunc16_length]

theorem read16_cons (a b : Nat) (l : List Nat) : read16 (a :: b :: l) 0 = a + 256 * b := rfl

theorem read16_write16 (v : Nat) (r : List Nat) :
    read16 (write16 v ++ r) 0 = v % 65536 := by
  show v % 256 + 256 * (v / 256 % 256) = v % 65536
  omega

/-- Bit-level facts about the V3.1 control byte, by exhaustive check. -/
theorem packControl31_spec : ∀ (t1 t2 t3 t4 : Bool), ∀ br < 4,
    packControl31 t1 t2 t3 t4 br < 256 ∧
    (packControl31 t1 t2 t3 t4 br &&& 0x01 != 0) = t1 ∧
    (packControl31 t1 t2 t3 t4 br &&& 0x02 != 0) = t2 ∧
    (packControl31 t1 t2 t3 t4 br &&& 0x04 != 0) = t3 ∧
    (packControl31 t1 t2 t3 t4 br &&& 0x08 != 0) = t4 ∧
    (packControl31 t1 t2 t3 t4 br >>> 4) &&& 0x03 = br := by decide

/-- The V4.0 tally byte decodes back to the triple it was built from. -/
theorem packTallyByte_spec : ∀ l < 4, ∀ t < 4, ∀ r < 4,
    packTallyByte ⟨l, t, r⟩ < 256 ∧
    parseTallyByte (packTallyByte ⟨l, t, r⟩) = ⟨l, t, r⟩ := by decide

/-- A printable character survives ascii masking and the control-character
replacement of parseV31. -/
theorem decode31Char_printable (c : Nat) (h1 : 0x20 ≤ c) (h2 : c ≤ 0x7E) :
    decode31Char (c % 256) = c := by
  have hc : c % 256 = c := Nat.mod_eq_of_lt (by omega)
  have hc7 : c % 128 = c := Nat.mod_eq_of_lt (by omega)
  simp only [decode31Char, hc, hc7]
  rw [if_neg (by omega)]

theorem padTrunc16_mem (t : List Nat) (h : ∀ c ∈ t, 0x20 ≤ c ∧ c ≤ 0x7E) :
    ∀ c ∈ padTrunc16 t, 0x20 ≤ c ∧ c ≤ 0x7E := by
  intro c hc
  rcases List.mem_append.1 (List.mem_of_mem_take hc) with hm | hm
  · exact h c hm
  · rw [List.eq_of_mem_replicate hm]
    omega

/-- Canonical shape of a valid encoded V3.1 packet: the byte-store
truncations mod 256 disappear. -/
theorem buildV31_eq (m : TslV31Message) (h : ValidV31 m) :
    buildV31 m = (m.address + 0x80) ::
      packControl31 m.tally1 m.tally2 m.tally3 m.tally4 m.brightness ::
      padTrunc16 m.displayText := by
  obtain ⟨ha, hb, ht⟩ := h
  obtain ⟨hlt, -⟩ := packControl31_spec m.tally1 m.tally2 m.tally3 m.tally4 m.brightness
    (by omega)
  have hmod : ∀ c ∈ padTrunc16 m.displayText, c % 256 = c := fun c hc =>
    Nat.mod_eq_of_lt (by have := (padTrunc16_mem _ ht) c hc; omega)
  have hmap : (padTrunc16 m.displayText).map (· % 256) = padTrunc16 m.displayText :=
    calc (padTrunc16 m.displayText).map (· % 256)
        = (padTrunc16 m.displayText).map id := List.map_congr_left hmod
      _ = padTrunc16 m.displayText := List.map_id _
  unfold buildV31
  rw [Nat.mod_eq_of_lt (by omega : m.address + 0x80 < 256), Nat.mod_eq_of_lt hlt, hmap]

theorem detect_buildV31 (m : TslV31Message) (h : ValidV31 m) :
    detectVersion (buildV31 m) = some .V3_1 := by
  have hl := buildV31_length m
  obtain ⟨ha, hb, ht⟩ := h
  rw [buildV31_eq m ⟨ha, hb, ht⟩] at hl ⊢
  unfold detectVersion
  rw [if_neg (by omega), if_neg ?hpbc, if_pos ?hhdr, if_neg (by omega)]
  case hpbc =>
    rw [read16_cons]
    omega
  case hhdr =>
    simp only [List.getD_cons_zero]
    omega

theorem parseV31_buildV31 (m : TslV31Message) (h : ValidV31 m) :
    parseV31 (buildV31 m) = some (normalizeV31 m) := by
  have hl := buildV31_length m
  obtain ⟨ha, hb, ht⟩ := h
  obtain ⟨hlt, h1, h2, h3, h4, hbr⟩ :=
    packControl31_spec m.tally1 m.tally2 m.tally3 m.tally4 m.brightness (by omega)
  rw [buildV31_eq m ⟨ha, hb, ht⟩] at hl ⊢
  unfold parseV31
  rw [if_neg (by omega), if_neg (by simp only [List.getD_cons_zero]; omega)]
  simp only [List.getD_cons_zero, List.getD_cons_succ, List.drop_succ_cons,
    List.drop_zero]
  have htake : (padTrunc16 m.displayText).take 16 = padTrunc16 m.displayText := by
    rw [← padTrunc16_length m.displayText]
    exact List.take_length _
  rw [htake]
  have htxt : decodeText31 (padTrunc16 m.displayText) = padTrunc16 m.displayText := by
    unfold decodeText31
    have hmem := padTrunc16_mem _ ht
    calc (padTrunc16 m.displayText).map decode31Char
        = (padTrunc16 m.displayText).map id := by
          refine List.map_congr_left fun c hc => ?_
          have hp := hmem c hc
          have : c % 256 = c := Nat.mod_eq_of_lt (by omega)
          conv_lhs => rw [← this]
          exact decode31Char_printable c hp.1 hp.2
      _ = padTrunc16 m.displayText := List.map_id _
  rw [htxt, h1, h2, h3, h4, hbr]
  simp only [normalizeV31, Nat.add_sub_cancel]

theorem parse_buildV31 (m : TslV31Message) (h : ValidV31 m) :
    parse (buildV31 m) = some (.v31 (normalizeV31 m)) := by
  rw [parse, detect_buildV31 m h, parseV31_buildV31 m h]
  rfl

end TSL

namespace TSL

-- V4.0 lemmas

theorem checksum18_lt (b : List Nat) : checksum18 b < 128 := by
  unfold checksum18
  omega

theorem packTallyByte_lt (t : TallyTriple) (h : ValidTriple t) : packTallyByte t < 256 := by
  obtain ⟨l, x, r⟩ := t
  simp only [ValidTriple] at h
  obtain ⟨h1, h2, h3⟩ := h
  exact (packTallyByte_spec l (by omega) x (by omega) r (by omega)).1

theorem parse_packTallyByte (t : TallyTriple) (h : ValidTriple t) :
    parseTallyByte (packTallyByte t) = t := by
  obtain ⟨l, x, r⟩ := t
  simp only [ValidTriple] at h
  obtain ⟨h1, h2, h3⟩ := h
  exact (packTallyByte_spec l (by omega) x (by omega) r (by omega)).2

theorem buildV40_eq (m : TslV40Message) (h : ValidV40 m) :
    buildV40 m = buildV31 (v31OfV40 m) ++
      [checksum18 (buildV31 (v31OfV40 m)), 0x02,
        packTallyByte m.leftDisplay, packTallyByte m.rightDisplay] := by
  obtain ⟨ha, hb, ht, hlv, hrv⟩ := h
  unfold buildV40
  rw [Nat.mod_eq_of_lt (packTallyByte_lt _ hlv), Nat.mod_eq_of_lt (packTallyByte_lt _ hrv)]

/-- Reads of the four trailing bytes of a V4.0 packet. -/
theorem getD_append18 (l : List Nat) (x0 x1 x2 x3 : Nat) (hl : l.length = 18) :
    (l ++ [x0, x1, x2, x3]).getD 18 0 = x0 ∧
    (l ++ [x0, x1, x2, x3]).getD 19 0 = x1 ∧
    (l ++ [x0, x1, x2, x3]).getD 20 0 = x2 ∧
    (l ++ [x0, x1, x2, x3]).getD 21 0 = x3 := by
  refine ⟨?_, ?_, ?_, ?_⟩ <;>
    · rw [List.getD_append_right _ _ _ _ (by omega), hl]
      rfl

/-- parseV31 only reads the first 18 bytes. -/
theorem parseV31_append (l r : List Nat) (hl : l.length = 18) :
    parseV31 (l ++ r) = parseV31 l := by
  unfold parseV31
  have h0 : (l ++ r).getD 0 0 = l.getD 0 0 := List.getD_append _ _ _ _ (by omega)
  have h1 : (l ++ r).getD 1 0 = l.getD 1 0 := List.getD_append _ _ _ _ (by omega)
  have hdrop : (l ++ r).drop 2 = l.drop 2 ++ r := List.drop_append_of_le_length (by omega)
  have htake : (l.drop 2 ++ r).take 16 = (l.drop 2).take 16 :=
    List.take_append_of_le_length (by simp [hl])
  rw [if_neg (by simp [hl]), if_neg (by omega : ¬ l.length < 18),
    h0, h1, hdrop, htake]

theorem sum18_append (l r : List Nat) (hl : l.length = 18) :
    sum18 (l ++ r) = sum18 l := by
  unfold sum18
  rw [← hl, List.take_left, List.take_length]

theorem checksum18_append (l r : List Nat) (hl : l.length = 18) :
    checksum18 (l ++ r) = checksum18 l := by
  unfold checksum18
  rw [sum18_append l r hl]

theorem buildV40_length (m : TslV40Message) : (buildV40 m).length = 22 := by
  unfold buildV40
  simp [buildV31_length]

/-- detectVersion on an 18-byte body followed by its checksum and the V4.0
trailer classifies as V4.0, provided the header is in range and the first
two bytes do not fake a V5.0 PBC. -/
theorem detectVersion_append4 (L : List Nat) (x1 x2 : Nat) (hlen : L.length = 18)
    (hh0 : 0x80 ≤ L.getD 0 0) (hh1 : L.getD 0 0 ≤ 0xFE) (hpbc : read16 L 0 ≠ 20) :
    detectVersion (L ++ [checksum18 L, 0x02, x1, x2]) = some .V4_0 := by
  obtain ⟨g18, g19, g20, g21⟩ := getD_append18 L (checksum18 L) 0x02 x1 x2 hlen
  have hlenB : (L ++ [checksum18 L, 0x02, x1, x2]).length = 22 := by simp [hlen]
  have h0 : (L ++ [checksum18 L, 0x02, x1, x2]).getD 0 0 = L.getD 0 0 :=
    List.getD_append _ _ _ _ (by omega)
  have h1 : (L ++ [checksum18 L, 0x02, x1, x2]).getD 1 0 = L.getD 1 0 :=
    List.getD_append _ _ _ _ (by omega)
  have hrB : read16 (L ++ [checksum18 L, 0x02, x1, x2]) 0 = read16 L 0 := by
    unfold read16
    rw [h0, h1]
  unfold detectVersion
  rw [if_neg (by omega), if_neg (by rw [hlenB, hrB]; omega), h0, if_pos ⟨hh0, hh1⟩,
    if_pos ⟨by omega, by rw [g18, checksum18_append _ _ hlen]⟩]

/-- parseV40 on an 18-byte body followed by its checksum and the V4.0
trailer: the V3.1 part comes from the body, the tally triples from the two
XDATA bytes. -/
theorem parseV40_append4 (L : List Nat) (x1 x2 : Nat) (hlen : L.length = 18) :
    parseV40 (L ++ [checksum18 L, 0x02, x1, x2]) =
      (parseV31 L).map fun v =>
        { address := v.address, tally1 := v.tally1, tally2 := v.tally2,
          tally3 := v.tally3, tally4 := v.tally4, brightness := v.brightness,
          displayText := v.displayText, leftDisplay := parseTallyByte x1,
          rightDisplay := parseTallyByte x2 } := by
  obtain ⟨g18, g19, g20, g21⟩ := getD_append18 L (checksum18 L) 0x02 x1 x2 hlen
  have hlenB : (L ++ [checksum18 L, 0x02, x1, x2]).length = 22 := by simp [hlen]
  unfold parseV40
  rw [if_neg (by omega), parseV31_append _ _ hlen, g18, g19, g20, g21,
    checksum18_append _ _ hlen]
  cases parseV31 L with
  | none => rfl
  | some v =>
    dsimp only
    rw [if_neg (fun hcl => hcl rfl), if_neg (by rw [hlenB]; decide)]
    rfl

theorem detect_buildV40 (m : TslV40Message) (h : ValidV40 m) :
    detectVersion (buildV40 m) = some .V4_0 := by
  obtain ⟨ha, hb, ht, hlv, hrv⟩ := h
  have h31 : ValidV31 (v31OfV40 m) := ⟨ha, hb, ht⟩
  rw [buildV40_eq m ⟨ha, hb, ht, hlv, hrv⟩]
  have hshape := buildV31_eq (v31OfV40 m) h31
  refine detectVersion_append4 _ _ _ (buildV31_length _) ?_ ?_ ?_ <;>
    rw [hshape]
  · simp only [List.getD_cons_zero]
    omega
  · simp only [List.getD_cons_zero]
    have : (v31OfV40 m).address = m.address := rfl
    omega
  · rw [read16_cons]
    omega

theorem parseV40_buildV40 (m : TslV40Message) (h : ValidV40 m) :
    parseV40 (buildV40 m) = some (normalizeV40 m) := by
  obtain ⟨ha, hb, ht, hlv, hrv⟩ := h
  have h31 : ValidV31 (v31OfV40 m) := ⟨ha, hb, ht⟩
  rw [buildV40_eq m ⟨ha, hb, ht, hlv, hrv⟩,
    parseV40_append4 _ _ _ (buildV31_length _), parseV31_buildV31 _ h31]
  simp only [Option.map_some']
  rw [parse_packTallyByte _ hlv, parse_packTallyByte _ hrv]
  rfl

theorem parse_buildV40 (m : TslV40Message) (h : ValidV40 m) :
    parse (buildV40 m) = some (.v40 (normalizeV40 m)) := by
  rw [parse, detect_buildV40 m h, parseV40_buildV40 m h]
  rfl

end TSL

namespace TSL

-- V5.0 lemmas

/-- Bit-level facts about the V5.0 display control word, by exhaustive
check: it fits one byte and its control-data bit 15 is clear. -/
theorem pack50_core1 : ∀ r < 4, ∀ t < 4, ∀ l < 4, ∀ b < 4,
    ((r &&& 0x03) ||| ((t &&& 0x03) <<< 2) ||| ((l &&& 0x03) <<< 4) |||
      ((b &&& 0x03) <<< 6)) < 256 ∧
    ((r &&& 0x03) ||| ((t &&& 0x03) <<< 2) ||| ((l &&& 0x03) <<< 4) |||
      ((b &&& 0x03) <<< 6)) &&& 0x8000 = 0 := by decide

/-- The low two 2-bit fields of the V5.0 control word extract back. -/
theorem pack50_core2 : ∀ r < 4, ∀ t < 4, ∀ l < 4, ∀ b < 4,
    ((r &&& 0x03) ||| ((t &&& 0x03) <<< 2) ||| ((l &&& 0x03) <<< 4) |||
      ((b &&& 0x03) <<< 6)) &&& 0x03 = r ∧
    (((r &&& 0x03) ||| ((t &&& 0x03) <<< 2) ||| ((l &&& 0x03) <<< 4) |||
      ((b &&& 0x03) <<< 6)) >>> 2) &&& 0x03 = t := by decide

/-- The high two 2-bit fields of the V5.0 control word extract back. -/
theorem pack50_core3 : ∀ r < 4, ∀ t < 4, ∀ l < 4, ∀ b < 4,
    (((r &&& 0x03) ||| ((t &&& 0x03) <<< 2) ||| ((l &&& 0x03) <<< 4) |||
      ((b &&& 0x03) <<< 6)) >>> 4) &&& 0x03 = l ∧
    (((r &&& 0x03) ||| ((t &&& 0x03) <<< 2) ||| ((l &&& 0x03) <<< 4) |||
      ((b &&& 0x03) <<< 6)) >>> 6) &&& 0x03 = b := by decide

theorem packControl50_spec (d : TslV50DisplayMessage) (hr : d.rightTally ≤ 3)
    (ht : d.textTally ≤ 3) (hl : d.leftTally ≤ 3) (hb : d.brightness ≤ 3) :
    packControl50 d < 256 ∧ packControl50 d &&& 0x8000 = 0 ∧
    packControl50 d &&& 0x03 = d.rightTally ∧
    (packControl50 d >>> 2) &&& 0x03 = d.textTally ∧
    (packControl50 d >>> 4) &&& 0x03 = d.leftTally ∧
    (packControl50 d >>> 6) &&& 0x03 = d.brightness := by
  obtain ⟨w1, w2⟩ := pack50_core1 d.rightTally (by omega) d.textTally (by omega)
    d.leftTally (by omega) d.brightness (by omega)
  obtain ⟨w3, w4⟩ := pack50_core2 d.rightTally (by omega) d.textTally (by omega)
    d.leftTally (by omega) d.brightness (by omega)
  obtain ⟨w5, w6⟩ := pack50_core3 d.rightTally (by omega) d.textTally (by omega)
    d.leftTally (by omega) d.brightness (by omega)
  exact ⟨w1, w2, w3, w4, w5, w6⟩

theorem utf16_roundtrip (t : List Nat) (h : ∀ u ∈ t, u < 65536) :
    utf16Decode (utf16Encode t) = t := by
  induction t with
  | nil => rfl
  | cons u rest ih =>
    have hu : u < 65536 := h u (List.mem_cons_self u rest)
    show (u % 256 + 256 * (u / 256 % 256)) :: utf16Decode (utf16Encode rest) = u :: rest
    rw [ih fun v hv => h v (List.mem_cons_of_mem u hv)]
    congr 1
    omega

theorem ascii_roundtrip (t : List Nat) (h : ∀ u ∈ t, u < 128) :
    (t.map (· % 256)).map (· % 128) = t := by
  rw [List.map_map]
  calc t.map ((· % 128) ∘ (· % 256))
      = t.map id := by
        refine List.map_congr_left fun u hu => ?_
        have := h u hu
        show u % 256 % 128 = u
        omega
    _ = t := List.map_id _

theorem decodeText50_roundtrip (uni : Bool) (t : List Nat)
    (h : ∀ u ∈ t, u < (if uni then 65536 else 128)) :
    decodeText50 uni (encodeText50 uni t) = t := by
  cases uni with
  | true => exact utf16_roundtrip t (by simpa using h)
  | false => exact ascii_roundtrip t (by simpa using h)

theorem encodeDisplay_length (uni : Bool) (d : TslV50DisplayMessage) :
    (encodeDisplay uni d).length = 6 + (encodeText50 uni d.text).length := by
  simp [encodeDisplay, write16]
  omega

theorem flatMap_encode_length (uni : Bool) (ds : List TslV50DisplayMessage) :
    (ds.flatMap (encodeDisplay uni)).length =
      (ds.map fun d => 6 + (encodeText50 uni d.text).length).sum := by
  rw [List.length_flatMap]
  congr 1
  exact List.map_congr_left fun d _ => encodeDisplay_length uni d

theorem dataSize50_ge (m : TslV50Message) : 4 ≤ dataSize50 m := by
  unfold dataSize50
  omega

theorem buildV50_length (m : TslV50Message) :
    (buildV50 m).length = 2 + dataSize50 m := by
  unfold buildV50
  simp only [List.length_append, flatMap_encode_length, write16, List.length_cons,
    List.length_nil]
  unfold dataSize50
  omega

/-- The flags byte of buildV50 with screenControl clear: bit 1 is clear and
bit 0 restores the unicode flag. -/
theorem flagsByte_spec (uni : Bool) :
    flagsByte ⟨uni, false⟩ &&& 0x02 = 0 ∧
    (flagsByte ⟨uni, false⟩ &&& 0x01 != 0) = uni := by
  cases uni <;> decide

theorem flagsByte_lt (f : TslV50Flags) : flagsByte f < 256 := by
  obtain ⟨u, sc⟩ := f
  cases u <;> cases sc <;> decide

/-- The display walk of parseV50 inverts the display encoding of buildV50,
for any sufficient fuel. -/
theorem walk_encode (uni : Bool) (ds : List TslV50DisplayMessage)
    (hv : ∀ d ∈ ds, ValidDisplay uni d)
    (htb : ∀ d ∈ ds, (encodeText50 uni d.text).length ≤ 65535) :
    ∀ f, (ds.flatMap (encodeDisplay uni)).length ≤ f →
      walkDisplays uni f (ds.flatMap (encodeDisplay uni)) = ds := by
  induction ds with
  | nil =>
    intro f _
    cases f <;> rfl
  | cons d rest ih =>
    intro f hf
    obtain ⟨hidx, hrt, htt, hlt, hbr, htxt⟩ := hv d (List.mem_cons_self d rest)
    obtain ⟨hc1, hc2, hc3, hc4, hc5, hc6⟩ := packControl50_spec d hrt htt hlt hbr
    have htb0 := htb d (List.mem_cons_self d rest)
    have hshape : (d :: rest).flatMap (encodeDisplay uni) =
        d.index % 256 :: d.index / 256 % 256 ::
        packControl50 d % 256 :: packControl50 d / 256 % 256 ::
        (encodeText50 uni d.text).length % 256 ::
        (encodeText50 uni d.text).length / 256 % 256 ::
        (encodeText50 uni d.text ++ rest.flatMap (encodeDisplay uni)) := by
      simp [List.flatMap_cons, encodeDisplay, write16]
    have hlen : ((d :: rest).flatMap (encodeDisplay uni)).length =
        6 + ((encodeText50 uni d.text).length +
          (rest.flatMap (encodeDisplay uni)).length) := by
      rw [hshape]
      simp
      omega
    rw [hlen] at hf
    obtain ⟨g, rfl⟩ : ∃ g, f = g + 1 := ⟨f - 1, by omega⟩
    rw [hshape]
    simp only [walkDisplays]
    have hr0 : read16 (d.index % 256 :: d.index / 256 % 256 ::
        packControl50 d % 256 :: packControl50 d / 256 % 256 ::
        (encodeText50 uni d.text).length % 256 ::
        (encodeText50 uni d.text).length / 256 % 256 ::
        (encodeText50 uni d.text ++ rest.flatMap (encodeDisplay uni))) 0 = d.index := by
      show d.index % 256 + 256 * (d.index / 256 % 256) = d.index
      omega
    have hr2 : read16 (d.index % 256 :: d.index / 256 % 256 ::
        packControl50 d % 256 :: packControl50 d / 256 % 256 ::
        (encodeText50 uni d.text).length % 256 ::
        (encodeText50 uni d.text).length / 256 % 256 ::
        (encodeText50 uni d.text ++ rest.flatMap (encodeDisplay uni))) 2 =
        packControl50 d := by
      show packControl50 d % 256 + 256 * (packControl50 d / 256 % 256) = packControl50 d
      omega
    have hr4 : read16 (d.index % 256 :: d.index / 256 % 256 ::
        packControl50 d % 256 :: packControl50 d / 256 % 256 ::
        (encodeText50 uni d.text).length % 256 ::
        (encodeText50 uni d.text).length / 256 % 256 ::
        (encodeText50 uni d.text ++ rest.flatMap (encodeDisplay uni))) 4 =
        (encodeText50 uni d.text).length := by
      show (encodeText50 uni d.text).length % 256 +
          256 * ((encodeText50 uni d.text).length / 256 % 256) =
        (encodeText50 uni d.text).length
      omega
    have hdrop6 : (d.index % 256 :: d.index / 256 % 256 ::
        packControl50 d % 256 :: packControl50 d / 256 % 256 ::
        (encodeText50 uni d.text).length % 256 ::
        (encodeText50 uni d.text).length / 256 % 256 ::
        (encodeText50 uni d.text ++ rest.flatMap (encodeDisplay uni))).drop 6 =
        encodeText50 uni d.text ++ rest.flatMap (encodeDisplay uni) := rfl
    have hlenc : (d.index % 256 :: d.index / 256 % 256 ::
        packControl50 d % 256 :: packControl50 d / 256 % 256 ::
        (encodeText50 uni d.text).length % 256 ::
        (encodeText50 uni d.text).length / 256 % 256 ::
        (encodeText50 uni d.text ++ rest.flatMap (encodeDisplay uni))).length =
        6 + ((encodeText50 uni d.text).length +
          (rest.flatMap (encodeDisplay uni)).length) := by
      simp
      omega
    rw [hr0, hr2, hr4, hdrop6, hc2, hlenc]
    rw [if_neg (by omega), if_neg (fun hz => hz rfl),
      if_neg (by simp only [List.length_append]; omega)]
    rw [List.take_left, List.drop_left, hc3, hc4, hc5, hc6,
      decodeText50_roundtrip uni d.text (by simpa using htxt)]
    exact congrArg₂ List.cons rfl
      (ih (fun x hx => hv x (List.mem_cons_of_mem d hx))
        (fun x hx => htb x (List.mem_cons_of_mem d hx)) g (by omega))

end TSL

namespace TSL

theorem buildV50_eq (m : TslV50Message) (hmv : m.minorVersion ≤ 255) :
    buildV50 m = dataSize50 m % 256 :: dataSize50 m / 256 % 256 ::
      m.minorVersion :: flagsByte m.flags :: m.screen % 256 :: m.screen / 256 % 256 ::
      m.displays.flatMap (encodeDisplay m.flags.unicode) := by
  unfold buildV50
  rw [Nat.mod_eq_of_lt (by omega : m.minorVersion < 256)]
  simp [write16]

theorem read16_buildV50 (m : TslV50Message) :
    read16 (buildV50 m) 0 = dataSize50 m % 65536 := by
  show dataSize50 m % 256 + 256 * (dataSize50 m / 256 % 256) = dataSize50 m % 65536
  omega

theorem detect_buildV50 (m : TslV50Message) (hds : dataSize50 m ≤ 65535) :
    detectVersion (buildV50 m) = some .V5_0 := by
  have hlen := buildV50_length m
  have hge := dataSize50_ge m
  have hpbc : read16 (buildV50 m) 0 = (buildV50 m).length - 2 := by
    rw [read16_buildV50, hlen]
    omega
  unfold detectVersion
  rw [if_neg (by omega), if_pos ⟨by omega, hpbc⟩]

/-- parseV50 on an explicit six-byte header followed by the display
area. -/
theorem parseV50_cons (a b c df e1 e2 : Nat) (R : List Nat)
    (hpbc : a + 256 * b = 4 + R.length) :
    parseV50 (a :: b :: c :: df :: e1 :: e2 :: R) =
      (if df &&& 0x02 != 0 then
        some { packetByteCount := a + 256 * b, minorVersion := c,
               flags := { unicode := df &&& 0x01 != 0, screenControl := true },
               screen := e1 + 256 * e2, displays := [] }
      else
        some { packetByteCount := a + 256 * b, minorVersion := c,
               flags := { unicode := df &&& 0x01 != 0, screenControl := false },
               screen := e1 + 256 * e2,
               displays := walkDisplays (df &&& 0x01 != 0) R.length R }) := by
  have hlen : (a :: b :: c :: df :: e1 :: e2 :: R).length = 6 + R.length := by
    simp
    omega
  have hr0 : read16 (a :: b :: c :: df :: e1 :: e2 :: R) 0 = a + 256 * b := rfl
  have hr4 : read16 (a :: b :: c :: df :: e1 :: e2 :: R) 4 = e1 + 256 * e2 := rfl
  have hdrop : (a :: b :: c :: df :: e1 :: e2 :: R).drop 6 = R := rfl
  unfold parseV50
  rw [hr0, hr4, hdrop, hlen]
  simp only [List.getD_cons_succ, List.getD_cons_zero]
  rw [if_neg (by omega), if_neg (by omega)]

theorem parseV50_buildV50 (m : TslV50Message) (h : ValidV50 m)
    (hsc : m.flags.screenControl = false) :
    parseV50 (buildV50 m) = some m := by
  obtain ⟨h1, h2, h3, h4, h5⟩ := h
  have hge := dataSize50_ge m
  have hb50 := buildV50_eq m (by omega)
  have hflat := flatMap_encode_length m.flags.unicode m.displays
  have hds : dataSize50 m =
      4 + (m.displays.map fun d => 6 + (encodeText50 m.flags.unicode d.text).length).sum := rfl
  rw [hb50, parseV50_cons _ _ _ _ _ _ _ (by omega)]
  obtain ⟨hf2, hf1⟩ := flagsByte_spec m.flags.unicode
  have hfe : (⟨m.flags.unicode, false⟩ : TslV50Flags) = m.flags := by
    rw [← hsc]
  rw [hfe] at hf2 hf1
  rw [hf2, if_neg (by decide), hf1]
  have htbb : ∀ d ∈ m.displays, (encodeText50 m.flags.unicode d.text).length ≤ 65535 := by
    intro d hd
    have hle : 6 + (encodeText50 m.flags.unicode d.text).length ≤
        (m.displays.map fun x => 6 + (encodeText50 m.flags.unicode x.text).length).sum :=
      List.single_le_sum (fun x _ => Nat.zero_le x) _
        (List.mem_map_of_mem _ hd)
    omega
  rw [walk_encode m.flags.unicode m.displays h5 htbb _ (le_refl _)]
  have hpbcv : dataSize50 m % 256 + 256 * (dataSize50 m / 256 % 256) =
      m.packetByteCount := by
    rw [h3]
    omega
  have hscr : m.screen % 256 + 256 * (m.screen / 256 % 256) = m.screen := by
    omega
  rw [hpbcv, hscr, hfe]

end TSL

namespace TSL

theorem parse_buildV50 (m : TslV50Message) (h : ValidV50 m)
    (hsc : m.flags.screenControl = false) :
    parse (buildV50 m) = some (.v50 m) := by
  rw [parse, detect_buildV50 m h.2.2.2.1, parseV50_buildV50 m h hsc]
  rfl

-- Framer lemmas

theorem destuff_cons_ne (a : Nat) (l : List Nat) (ha : a ≠ 0xFE) :
    destuff (a :: l) = a :: destuff l := by
  cases l with
  | nil => rfl
  | cons b r =>
    simp only [destuff]
    rw [if_neg (by simp [ha])]

theorem destuff_stuff (x : List Nat) : destuff (stuff x) = x := by
  induction x with
  | nil => rfl
  | cons a r ih =>
    by_cases ha : a = 0xFE
    · subst ha
      show destuff (if (0xFE : Nat) = 0xFE then 0xFE :: 0xFE :: stuff r
        else 0xFE :: stuff r) = 0xFE :: r
      rw [if_pos rfl]
      simp only [destuff]
      rw [if_pos (by decide), ih]
    · show destuff (if a = 0xFE then 0xFE :: 0xFE :: stuff r else a :: stuff r) = a :: r
      rw [if_neg ha, destuff_cons_ne a _ ha, ih]

theorem unwrap_wrap (x : List Nat) : unwrapFromTcp (wrapForTcp x) = some x := by
  unfold wrapForTcp unwrapFromTcp
  have hfind : findDelim (0xFE :: 0x02 :: stuff x) = some (stuff x) := by
    unfold findDelim
    rw [if_pos ⟨rfl, rfl⟩]
  rw [hfind]
  simp only [Option.map_some']
  rw [destuff_stuff]

end TSL

namespace TSL

-- Mutation lemmas (V4.0 checksum protection)

theorem sum_set_rel (l : List Nat) : ∀ (i v : Nat), i < l.length →
    (l.set i v).sum + l.getD i 0 = l.sum + v := by
  induction l with
  | nil =>
    intro i v h
    simp at h
  | cons a t ih =>
    intro i v h
    cases i with
    | zero =>
      simp only [List.set_cons_zero, List.sum_cons, List.getD_cons_zero]
      omega
    | succ j =>
      have hj : j < t.length := by
        simp at h
        omega
      have := ih j v hj
      simp only [List.set_cons_succ, List.sum_cons, List.getD_cons_succ]
      omega

theorem take_set_lt (l : List Nat) : ∀ (n i v : Nat), i < n →
    (l.set i v).take n = (l.take n).set i v := by
  induction l with
  | nil =>
    intro n i v _
    simp
  | cons a t ih =>
    intro n i v h
    cases i with
    | zero =>
      cases n with
      | zero => omega
      | succ k => simp
    | succ j =>
      cases n with
      | zero => omega
      | succ k =>
        simp only [List.set_cons_succ, List.take_succ_cons]
        rw [ih k j v (by omega)]

theorem getD_set_ne (l : List Nat) : ∀ (i j v : Nat), i ≠ j →
    (l.set i v).getD j 0 = l.getD j 0 := by
  induction l with
  | nil =>
    intro i j v _
    simp
  | cons a t ih =>
    intro i j v h
    cases i with
    | zero =>
      cases j with
      | zero => omega
      | succ k => simp
    | succ i2 =>
      cases j with
      | zero => simp
      | succ k =>
        simp only [List.set_cons_succ, List.getD_cons_succ]
        exact ih i2 k v (by omega)

theorem getD_take_lt (l : List Nat) (n i : Nat) (hi : i < n) (hl : n ≤ l.length) :
    (l.take n).getD i 0 = l.getD i 0 := by
  have h1 : i < (l.take n).length := by
    simp
    omega
  rw [List.getD_eq_getElem _ _ h1, List.getElem_take,
    List.getD_eq_getElem _ _ (by omega)]

/-- A single-byte mutation of the first 18 bytes that changes the byte mod
128 makes the stored checksum disagree with the recomputed one, so
parseV40 fails. -/
theorem parseV40_set_none (b : List Nat) (hb : b.length = 22)
    (hcs : b.getD 18 0 = checksum18 b) (i v : Nat) (hi : i < 18)
    (hv : v % 128 ≠ b.getD i 0 % 128) :
    parseV40 (b.set i v) = none := by
  have hlen : (b.set i v).length = 22 := by rw [List.length_set, hb]
  have h18 : (b.set i v).getD 18 0 = b.getD 18 0 := getD_set_ne _ _ _ _ (by omega)
  have hgt : (b.take 18).getD i 0 = b.getD i 0 := getD_take_lt b 18 i hi (by omega)
  have hsum : sum18 (b.set i v) + b.getD i 0 = sum18 b + v := by
    unfold sum18
    rw [take_set_lt b 18 i v hi, ← hgt]
    exact sum_set_rel (b.take 18) i v (by simp [hb]; omega)
  have hne : (b.set i v).getD 18 0 ≠ checksum18 (b.set i v) := by
    rw [h18, hcs]
    unfold checksum18 at *
    omega
  unfold parseV40
  rw [if_neg (by omega)]
  cases hp : parseV31 (b.set i v) with
  | none => rfl
  | some w =>
    dsimp only
    rw [if_pos hne]

/-- The checksum byte written by buildV40 always matches the recomputed
checksum of the encoded buffer. -/
theorem buildV40_getD18 (m : TslV40Message) :
    (buildV40 m).getD 18 0 = checksum18 (buildV40 m) := by
  unfold buildV40
  rw [(getD_append18 _ _ _ _ _ (buildV31_length _)).1,
    checksum18_append _ _ (buildV31_length _)]

-- detectVersion characterization (shared by several claims)

theorem detect_v50_iff (b : List Nat) :
    detectVersion b = some .V5_0 ↔ 6 ≤ b.length ∧ read16 b 0 = b.length - 2 := by
  unfold detectVersion
  by_cases h2 : b.length < 2
  · rw [if_pos h2]
    constructor
    · intro h
      cases h
    · intro hc
      omega
  · rw [if_neg h2]
    by_cases hc : 6 ≤ b.length ∧ read16 b 0 = b.length - 2
    · rw [if_pos hc]
      simp [hc]
    · rw [if_neg hc]
      constructor
      · intro h
        by_cases hh : 0x80 ≤ b.getD 0 0 ∧ b.getD 0 0 ≤ 0xFE
        · rw [if_pos hh] at h
          by_cases h4 : 18 < b.length ∧ b.getD 18 0 = checksum18 b
          · rw [if_pos h4] at h
            simp at h
          · rw [if_neg h4] at h
            simp at h
        · rw [if_neg hh] at h
          cases h
      · intro hcc
        exact absurd hcc hc

/-- If detectVersion does not report V5.0 then parse cannot return a V5.0
message. -/
theorem parse_not_v50 (b : List Nat) (hd : detectVersion b ≠ some .V5_0)
    (msg : TslMessage) (hp : parse b = some msg) : msg.version ≠ .V5_0 := by
  unfold parse at hp
  cases hdet : detectVersion b with
  | none =>
    rw [hdet] at hp
    cases hp
  | some v =>
    cases v with
    | V3_1 =>
      rw [hdet] at hp
      obtain ⟨w, hw, he⟩ := Option.map_eq_some'.1 hp
      rw [← he]
      simp [TslMessage.version]
    | V4_0 =>
      rw [hdet] at hp
      obtain ⟨w, hw, he⟩ := Option.map_eq_some'.1 hp
      rw [← he]
      simp [TslMessage.version]
    | V5_0 => exact absurd hdet hd

theorem getD_dropLast_eq (l : List Nat) (i : Nat) (h : i + 1 < l.length) :
    l.dropLast.getD i 0 = l.getD i 0 := by
  have h1 : i < l.dropLast.length := by
    rw [List.length_dropLast]
    omega
  rw [List.getD_eq_getElem _ _ h1, List.getElem_dropLast,
    List.getD_eq_getElem _ _ (by omega)]

theorem read16_dropLast (l : List Nat) (h : 3 ≤ l.length) :
    read16 l.dropLast 0 = read16 l 0 := by
  unfold read16
  rw [getD_dropLast_eq _ _ (by omega), getD_dropLast_eq _ _ (by omega)]

theorem read16_append_one (l : List Nat) (c : Nat) (h : 2 ≤ l.length) :
    read16 (l ++ [c]) 0 = read16 l 0 := by
  unfold read16
  rw [List.getD_append _ _ _ _ (by omega), List.getD_append _ _ _ _ (by omega)]

-- Fuel stabilization of the V5.0 display walk

theorem walkDisplays_fuel (uni : Bool) : ∀ (f1 : Nat) (rest : List Nat) (f2 : Nat),
    rest.length ≤ f1 → rest.length ≤ f2 →
    walkDisplays uni f1 rest = walkDisplays uni f2 rest := by
  intro f1
  induction f1 with
  | zero =>
    intro rest f2 h1 _
    have hr : rest = [] := List.eq_nil_of_length_eq_zero (by omega)
    subst hr
    cases f2 <;> rfl
  | succ a ih =>
    intro rest f2 h1 h2
    by_cases h6 : rest.length < 6
    · cases f2 with
      | zero =>
        have hr : rest = [] := List.eq_nil_of_length_eq_zero (by omega)
        subst hr
        rfl
      | succ k =>
        simp only [walkDisplays]
        rw [if_pos h6, if_pos h6]
    · obtain ⟨k, rfl⟩ : ∃ k, f2 = k + 1 := ⟨f2 - 1, by omega⟩
      simp only [walkDisplays]
      rw [if_neg h6, if_neg h6]
      by_cases hbit : read16 rest 2 &&& 0x8000 ≠ 0
      · rw [if_pos hbit, if_pos hbit]
      · rw [if_neg hbit, if_neg hbit]
        by_cases htr : (rest.drop 6).length < read16 rest 4
        · rw [if_pos htr, if_pos htr]
        · rw [if_neg htr, if_neg htr]
          have hlen : ((rest.drop 6).drop (read16 rest 4)).length =
              rest.length - 6 - read16 rest 4 := by
            simp
            omega
          exact congrArg₂ List.cons rfl
            (ih ((rest.drop 6).drop (read16 rest 4)) k (by rw [hlen]; omega)
              (by rw [hlen]; omega))

end TSL

namespace TSL

-- Stream reassembler lemmas

/-- One handleData pass over a buffer holding a whole number of V3.1
packets consumes them one by one, provided no buffer state contains a
DLE,STX delimiter pair and every buffer state detects as V3.1. -/
theorem handleLoopF_chunk (msgs : List TslV31Message)
    (hgood : ∀ s ∈ msgs.tails, s ≠ [] →
      unwrapFromTcp (chunkBytes s) = none ∧
        detectVersion (chunkBytes s) = some .V3_1) :
    ∀ f, (chunkBytes msgs).length ≤ f →
      handleLoopF f (chunkBytes msgs) = (msgs.map buildV31, []) := by
  induction msgs with
  | nil =>
    intro f _
    cases f <;> rfl
  | cons m rest ih =>
    intro f hf
    have hself : (m :: rest) ∈ (m :: rest).tails := by
      rw [List.tails_cons]
      exact List.mem_cons_self _ _
    obtain ⟨hu, hdet⟩ := hgood _ hself (by simp)
    have hcb : chunkBytes (m :: rest) = buildV31 m ++ chunkBytes rest := by
      simp [chunkBytes]
    have hlen : (chunkBytes (m :: rest)).length = 18 + (chunkBytes rest).length := by
      rw [hcb]
      simp [buildV31_length]
    have htake : (chunkBytes (m :: rest)).take 18 = buildV31 m := by
      rw [hcb, ← buildV31_length m]
      exact List.take_left _ _
    have hdrop : (chunkBytes (m :: rest)).drop 18 = chunkBytes rest := by
      rw [hcb, ← buildV31_length m]
      exact List.drop_left _ _
    obtain ⟨g, rfl⟩ : ∃ g, f = g + 1 := ⟨f - 1, by omega⟩
    have hrec : handleLoopF g (chunkBytes rest) = (rest.map buildV31, []) :=
      ih (fun s hs hne => hgood s
        (by rw [List.tails_cons]; exact List.mem_cons_of_mem _ hs) hne) g (by omega)
    simp only [handleLoopF]
    rw [if_neg (by rw [hlen]; omega), hu]
    dsimp only
    rw [if_pos (by rw [hlen]; omega), hdet]
    dsimp only
    rw [htake, hdrop, hrec]
    rfl

theorem handleLoop_chunk (msgs : List TslV31Message)
    (hgood : ∀ s ∈ msgs.tails, s ≠ [] →
      unwrapFromTcp (chunkBytes s) = none ∧
        detectVersion (chunkBytes s) = some .V3_1) :
    handleLoop (chunkBytes msgs) = (msgs.map buildV31, []) :=
  handleLoopF_chunk msgs hgood _ (le_refl _)

/-- Feeding whole-packet chunks to the TCP reassembler emits exactly the
packets in order, leaving an empty buffer. -/
theorem runChunks_chunks (chunks : List (List TslV31Message))
    (hgood : ∀ c ∈ chunks, ∀ s ∈ c.tails, s ≠ [] →
      unwrapFromTcp (chunkBytes s) = none ∧
        detectVersion (chunkBytes s) = some .V3_1) :
    runChunks [] (chunks.map chunkBytes) = chunks.flatten.map buildV31 := by
  induction chunks with
  | nil => rfl
  | cons c cs ih =>
    show (handleData [] (chunkBytes c)).1 ++
      runChunks (handleData [] (chunkBytes c)).2 (cs.map chunkBytes) = _
    have hh : handleData [] (chunkBytes c) = (c.map buildV31, []) := by
      unfold handleData
      rw [List.nil_append]
      exact handleLoop_chunk c (hgood c (List.mem_cons_self _ _))
    rw [hh]
    dsimp only
    rw [ih fun x hx => hgood x (List.mem_cons_of_mem _ hx)]
    rw [List.flatten_cons, List.map_append]

end TSL

namespace TSL

-- Claim theorems

/-- C1 (amended): for every valid Wire Model value of version V3.1, V4.0
or V5.0 (address 0..126, enum fields in range, printable or in-range text,
and for V5.0 the PBC invariant), the auto-detecting parse applied to the
corresponding encoder output returns a message of the same version with
the same field values, except that the decoded V3.1/V4.0 display text is
the original text space-padded/truncated to exactly 16 characters, and
with the V5.0 case restricted to messages whose screenControl flag is
clear (when the flag is set the decoder discards the encoded display
list, see the counterexample). -/
theorem claim1_roundtrip :
    (∀ m : TslV31Message, ValidV31 m →
      parse (buildV31 m) = some (.v31 (normalizeV31 m))) ∧
    (∀ m : TslV40Message, ValidV40 m →
      parse (buildV40 m) = some (.v40 (normalizeV40 m))) ∧
    (∀ m : TslV50Message, ValidV50 m → m.flags.screenControl = false →
      parse (buildV50 m) = some (.v50 m)) :=
  ⟨parse_buildV31, parse_buildV40, parse_buildV50⟩

/-- C1 witness: the round trip evaluated at one concrete message of each
version. -/
theorem claim1_witness :
    parse (buildV31 wit31) = some (.v31 (normalizeV31 wit31)) ∧
    parse (buildV40 wit40) = some (.v40 (normalizeV40 wit40)) ∧
    parse (buildV50 wit50) = some (.v50 wit50) :=
  ⟨claim1_roundtrip.1 wit31 (by decide), claim1_roundtrip.2.1 wit40 (by decide),
    claim1_roundtrip.2.2 wit50 (by decide) rfl⟩

/-- C1 counterexample: a valid V5.0 value with the screenControl flag set
and a non-empty display list does not round-trip: the decoder returns the
message with an empty display list, which differs from the original
value. -/
theorem claim1_cex :
    ValidV50 cex50sc ∧
    parse (buildV50 cex50sc) = some (.v50 { cex50sc with displays := [] }) ∧
    ({ cex50sc with displays := [] } : TslV50Message) ≠ cex50sc :=
  ⟨by decide, by decide, by decide⟩

/-- C2: detectVersion classifies a buffer as V5.0 exactly when its length
is at least 6 and its first 16 bits read little-endian equal the length
minus 2; since this characterization does not mention the first byte, the
PBC check takes precedence over the V3.1/V4.0 header-range check. -/
theorem claim2_detect_v50 (b : List Nat) :
    detectVersion b = some .V5_0 ↔ 6 ≤ b.length ∧ read16 b 0 = b.length - 2 :=
  detect_v50_iff b

set_option maxRecDepth 4096 in
/-- C2 witness: a 136-byte buffer whose first byte 0x86 lies in the
V3.1/V4.0 header range but whose PBC equals length minus 2 is still
classified as V5.0. -/
theorem claim2_witness :
    (6 ≤ ambiguousBuf.length ∧ read16 ambiguousBuf 0 = ambiguousBuf.length - 2) ∧
    detectVersion ambiguousBuf = some .V5_0 :=
  ⟨by decide, (claim2_detect_v50 ambiguousBuf).2 (by decide)⟩

/-- C3 (amended): for a valid V4.0 message, changing any single byte among
bytes 0..17 of the encoded buffer in a way that changes the byte mod 128
makes the V4.0 decoder parseV40 fail on the mutated buffer (the stored
checksum no longer matches the recomputed one); mutations by a multiple of
128 preserve the checksum and are exempt.  The auto-detecting parse does
not fail but reclassifies the buffer, see the counterexample. -/
theorem claim3_checksum (m : TslV40Message) (h : ValidV40 m) (i v : Nat)
    (hi : i < 18) (hv : v < 256)
    (hmod : v % 128 ≠ (buildV40 m).getD i 0 % 128) :
    parseV40 ((buildV40 m).set i v) = none :=
  parseV40_set_none (buildV40 m) (buildV40_length m) (buildV40_getD18 m) i v hi hmod

/-- C3 witness: mutating text byte 2 of a concrete V4.0 packet from 0x20
to 0x21 makes parseV40 fail. -/
theorem claim3_witness :
    (ValidV40 cex40 ∧ 2 < 18 ∧ 33 < 256 ∧
      (33 : Nat) % 128 ≠ (buildV40 cex40).getD 2 0 % 128) ∧
    parseV40 ((buildV40 cex40).set 2 33) = none :=
  ⟨⟨by decide, by decide, by decide, by decide⟩,
    claim3_checksum cex40 (by decide) 2 33 (by decide) (by decide) (by decide)⟩

/-- C3 counterexample: the same mutation does not make the auto-detecting
decode fail: the checksum of the mutated buffer no longer matches, yet
parse reclassifies the mutated buffer as V3.1 and succeeds. -/
theorem claim3_cex :
    ((buildV40 cex40).set 2 33).getD 18 0 ≠
      checksum18 ((buildV40 cex40).set 2 33) ∧
    (parse ((buildV40 cex40).set 2 33)).isSome = true :=
  ⟨by decide, by decide⟩

/-- C4 (amended): removing the last byte of an encoded V5.0 buffer, or
appending one byte, yields a buffer that decode never returns as a V5.0
message, because the stored PBC no longer equals the length minus 2; the
result may however be a successful V3.1/V4.0 decode rather than a failure
(see the counterexample). -/
theorem claim4_pbc (m : TslV50Message) (h : ValidV50 m) (c : Nat) :
    (∀ msg, parse ((buildV50 m).dropLast) = some msg → msg.version ≠ .V5_0) ∧
    (∀ msg, parse (buildV50 m ++ [c]) = some msg → msg.version ≠ .V5_0) := by
  have hds := h.2.2.2.1
  have hge := dataSize50_ge m
  have hlen := buildV50_length m
  constructor
  · intro msg hp
    refine parse_not_v50 _ ?_ msg hp
    intro hc
    obtain ⟨h6, hpbc⟩ := (detect_v50_iff _).1 hc
    have hld : ((buildV50 m).dropLast).length = 1 + dataSize50 m := by
      rw [List.length_dropLast, hlen]
      omega
    have hr : read16 ((buildV50 m).dropLast) 0 = dataSize50 m := by
      rw [read16_dropLast _ (by omega), read16_buildV50]
      omega
    rw [hr, hld] at hpbc
    omega
  · intro msg hp
    refine parse_not_v50 _ ?_ msg hp
    intro hc
    obtain ⟨h6, hpbc⟩ := (detect_v50_iff _).1 hc
    have hla : (buildV50 m ++ [c]).length = 3 + dataSize50 m := by
      rw [List.length_append, hlen]
      simp
      omega
    have hr : read16 (buildV50 m ++ [c]) 0 = dataSize50 m := by
      rw [read16_append_one _ _ (by omega), read16_buildV50]
      omega
    rw [hr, hla] at hpbc
    omega

/-- C4 witness: the truncated form of one concrete encoded V5.0 packet is
never decoded as V5.0. -/
theorem claim4_witness :
    ValidV50 wit50 ∧
    (∀ msg, parse ((buildV50 wit50).dropLast) = some msg →
      msg.version ≠ .V5_0) :=
  ⟨by decide, (claim4_pbc wit50 (by decide) 0).1⟩

set_option maxRecDepth 8192 in
/-- C4 counterexample: decode does not fail on every truncated V5.0
buffer: for a 130-byte encoded packet (data size 128, so the truncated
buffer starts with byte 0x80) decode succeeds, classified as V3.1. -/
theorem claim4_cex :
    ValidV50 cex50big ∧
    (parse ((buildV50 cex50big).dropLast)).isSome = true :=
  ⟨by decide, by decide⟩

/-- C5: TCP byte-stuffing framing round-trips: unwrapFromTcp of
wrapForTcp returns the original byte sequence for every input, including
the empty one and inputs containing 0xFE; in particular unwrapping
[0xFE, 0x02, 0x01, 0xFE, 0xFE, 0x02] yields [0x01, 0xFE, 0x02]. -/
theorem claim5_framing :
    (∀ x : List Nat, unwrapFromTcp (wrapForTcp x) = some x) ∧
    unwrapFromTcp [0xFE, 0x02, 0x01, 0xFE, 0xFE, 0x02] = some [0x01, 0xFE, 0x02] :=
  ⟨unwrap_wrap, by decide⟩

end TSL

namespace TSL

/-- C6 (amended): delivering valid 18-byte V3.1 packets to the TCP stream
reassembler yields exactly the N packets with their original decoded
contents, provided every chunk boundary falls on a packet boundary (each
chunk is a whole number of packets) and no intermediate buffer state
either contains a DLE,STX delimiter pair (which would divert the loop
into the TCP-unwrap path) or satisfies a non-V3.1 version detection.
Without these provisos the property fails, see the counterexample. -/
theorem claim6_reassembler (chunks : List (List TslV31Message))
    (hval : ∀ c ∈ chunks, ∀ m ∈ c, ValidV31 m)
    (hgood : ∀ c ∈ chunks, ∀ s ∈ c.tails, s ≠ [] →
      unwrapFromTcp (chunkBytes s) = none ∧
        detectVersion (chunkBytes s) = some .V3_1) :
    (runChunks [] (chunks.map chunkBytes)).map parse =
      chunks.flatten.map fun m => some (.v31 (normalizeV31 m)) := by
  rw [runChunks_chunks chunks hgood, List.map_map]
  refine List.map_congr_left fun m hm => ?_
  obtain ⟨c, hc, hmc⟩ := List.mem_flatten.1 hm
  exact parse_buildV31 m (hval c hc m hmc)

/-- C6 witness: three packets delivered as two aligned chunks are all
reassembled and decoded. -/
theorem claim6_witness :
    (runChunks [] ([[wit31, wit31b], [wit31c]].map chunkBytes)).map parse =
      [[wit31, wit31b], [wit31c]].flatten.map
        (fun m => some (.v31 (normalizeV31 m))) :=
  claim6_reassembler [[wit31, wit31b], [wit31c]] (by decide) (by decide)

/-- C6 counterexample: one valid packet split into two 9-byte chunks is
not reassembled: the loop emits each half as an undecodable raw packet,
so two Parsed Packets are produced and neither decodes to the original
message. -/
theorem claim6_cex :
    ValidV31 cex31 ∧
    runChunks [] [(buildV31 cex31).take 9, (buildV31 cex31).drop 9] =
      [(buildV31 cex31).take 9, (buildV31 cex31).drop 9] ∧
    parse ((buildV31 cex31).take 9) = none ∧
    parse ((buildV31 cex31).drop 9) = none :=
  ⟨by decide, by decide, by decide, by decide⟩

/-- C7 (amended): in V3.1 decoding the 16 text bytes first pass through
the ascii decode, which clears the high bit of each byte; every character
whose source byte has its low seven bits outside the printable range
0x20..0x7E is then replaced by a space.  (A byte outside 0x20..0x7E whose
low seven bits are printable decodes to that printable character, not to
a space, see the counterexample.) -/
theorem claim7_text (b : List Nat) (hlen : 18 ≤ b.length)
    (h0 : 0x80 ≤ b.getD 0 0) (h1 : b.getD 0 0 ≤ 0xFE) (i : Nat) (hi : i < 16)
    (hbyte : ¬ (0x20 ≤ b.getD (2 + i) 0 % 128 ∧ b.getD (2 + i) 0 % 128 ≤ 0x7E)) :
    (parseV31 b).map (fun m => m.displayText.getD i 0) = some 0x20 := by
  unfold parseV31
  rw [if_neg (by omega), if_neg (by omega)]
  simp only [Option.map_some']
  have hmlen : i < (((b.drop 2).take 16).map decode31Char).length := by
    simp
    omega
  have htlen : i < ((b.drop 2).take 16).length := by
    simp
    omega
  unfold decodeText31
  rw [List.getD_eq_getElem _ _ hmlen, List.getElem_map, List.getElem_take,
    List.getElem_drop]
  rw [List.getD_eq_getElem _ _ (by omega : 2 + i < b.length)] at hbyte
  unfold decode31Char
  rw [if_pos (by omega)]

/-- C7 witness: a control byte 0x05 in the text area decodes to a
space. -/
theorem claim7_witness :
    (18 ≤ ([0x80, 0, 0x05] ++ List.replicate 15 0x20).length ∧
      0x80 ≤ ([0x80, 0, 0x05] ++ List.replicate 15 0x20).getD 0 0 ∧
      ([0x80, 0, 0x05] ++ List.replicate 15 0x20).getD 0 0 ≤ 0xFE ∧
      ¬ (0x20 ≤ ([0x80, 0, 0x05] ++ List.replicate 15 0x20).getD 2 0 % 128 ∧
        ([0x80, 0, 0x05] ++ List.replicate 15 0x20).getD 2 0 % 128 ≤ 0x7E)) ∧
    (parseV31 ([0x80, 0, 0x05] ++ List.replicate 15 0x20)).map
      (fun m => m.displayText.getD 0 0) = some 0x20 :=
  ⟨⟨by decide, by decide, by decide, by decide⟩,
    claim7_text _ (by decide) (by decide) (by decide) 0 (by decide) (by decide)⟩

/-- C7 counterexample: the source byte 0xC1 lies outside the printable
range 0x20..0x7E, but the decoded character is the letter A (0x41), not a
space: Node ascii decoding clears the high bit before the replacement. -/
theorem claim7_cex :
    ¬ (0x20 ≤ (0xC1 : Nat) ∧ (0xC1 : Nat) ≤ 0x7E) ∧
    (parseV31 ([0x80, 0, 0xC1] ++ List.replicate 15 0x20)).map
      (fun m => m.displayText.getD 0 0) = some 0x41 ∧
    (0x41 : Nat) ≠ 0x20 :=
  ⟨by decide, by decide, by decide⟩

/-- C8 (amended): the spec example miscomputes the PBC condition: on
[0x06, 0, 0, 0, 0, 0] the candidate PBC is 6 but length minus 2 is 4, so
detect returns no version (see the counterexample); the corrected example
buffer [0x04, 0, 0, 0, 0, 0] (PBC 4 = 6 - 2) is classified as V5.0. -/
theorem claim8_detect :
    detectVersion [0x04, 0x00, 0x00, 0x00, 0x00, 0x00] = some .V5_0 := by
  decide

/-- C8 counterexample: on the buffer of the claim, detect returns none,
not V5.0: the candidate PBC 6 differs from length - 2 = 4 and the first
byte 0x06 is outside the header range. -/
theorem claim8_cex :
    detectVersion [0x06, 0x00, 0x00, 0x00, 0x00, 0x00] = none := by
  decide

/-- C9: the V5.0 encoder ignores the packetByteCount field of its input
and always writes a PBC recomputed from the actual content: the written
PBC equals the encoded length minus 2, the encoded bytes do not depend on
the packetByteCount field, and decoding returns the recomputed value. -/
theorem claim9_pbc (m : TslV50Message) (h : dataSize50 m ≤ 65535) :
    read16 (buildV50 m) 0 = (buildV50 m).length - 2 ∧
    (∀ p, buildV50 { m with packetByteCount := p } = buildV50 m) ∧
    (parseV50 (buildV50 m)).map (fun w => w.packetByteCount) =
      some ((buildV50 m).length - 2) := by
  have hlen := buildV50_length m
  have hge := dataSize50_ge m
  have h1 : read16 (buildV50 m) 0 = dataSize50 m := by
    rw [read16_buildV50]
    omega
  refine ⟨by rw [h1, hlen]; omega, fun p => rfl, ?_⟩
  unfold parseV50
  rw [h1, hlen, if_neg (by omega), if_neg (by omega)]
  by_cases hb : ((buildV50 m).getD 3 0 &&& 0x02 != 0) = true
  · rw [if_pos hb]
    simp only [Option.map_some', Option.some.injEq]
    omega
  · rw [if_neg hb]
    simp only [Option.map_some', Option.some.injEq]
    omega

/-- C9 witness: a concrete V5.0 message carrying a wrong packetByteCount
of 999 still encodes with the recomputed PBC 13, and decoding returns
13. -/
theorem claim9_witness :
    dataSize50 { wit50 with packetByteCount := 999 } ≤ 65535 ∧
    (read16 (buildV50 { wit50 with packetByteCount := 999 }) 0 =
      (buildV50 { wit50 with packetByteCount := 999 }).length - 2 ∧
    (∀ p, buildV50 { { wit50 with packetByteCount := 999 } with
      packetByteCount := p } = buildV50 { wit50 with packetByteCount := 999 }) ∧
    (parseV50 (buildV50 { wit50 with packetByteCount := 999 })).map
      (fun w => w.packetByteCount) =
      some ((buildV50 { wit50 with packetByteCount := 999 }).length - 2)) :=
  ⟨by decide, claim9_pbc { wit50 with packetByteCount := 999 } (by decide)⟩

/-- C10: the V5.0 display-list walk of parseV50 terminates on every
input: its result is independent of the fuel bound once the fuel is at
least the number of remaining bytes (each iteration either exits or
consumes at least 6 bytes), so parseV50, which runs the walk with fuel
equal to the remaining length, is a total function of its input. -/
theorem claim10_walk_total (uni : Bool) (rest : List Nat) (f1 f2 : Nat)
    (h1 : rest.length ≤ f1) (h2 : rest.length ≤ f2) :
    walkDisplays uni f1 rest = walkDisplays uni f2 rest :=
  walkDisplays_fuel uni f1 rest f2 h1 h2

/-- C10 witness: the walk over one concrete display area gives the same
result with the minimal and a much larger fuel bound. -/
theorem claim10_witness :
    (([0, 0, 0, 0, 2, 0, 9, 9] : List Nat).length ≤ 8 ∧
      ([0, 0, 0, 0, 2, 0, 9, 9] : List Nat).length ≤ 100) ∧
    walkDisplays false 8 [0, 0, 0, 0, 2, 0, 9, 9] =
      walkDisplays false 100 [0, 0, 0, 0, 2, 0, 9, 9] :=
  ⟨⟨by decide, by decide⟩,
    claim10_walk_total false [0, 0, 0, 0, 2, 0, 9, 9] 8 100 (by decide) (by decide)⟩

end TSL
